import Mathlib

/-!
Shallow embedding of the local-first data repository and sync engine
(`useDataRepository.ts`): entity model, local CRUD over a list-backed
table, and the push/pull sync pass with conflict detection.

Timestamps are ISO-8601 strings in the source; their ordering (both the
SQL string comparison and `new Date(s).getTime()`) is the time order, so
they are embedded as `Nat`.  The clock (`getCurrentTimestamp`) and the id
generator (`generateId`) are passed in as explicit parameters.  Remote
HTTP calls and the possibility that the local store's dirty-record query
fails are supplied by a `SyncEnv` oracle.  Fallible operations return
`Except String`; the sync pass itself is a total function returning a
`SyncResult`, mirroring the source's catch-all structure.
-/

/-- A row of an entity table (`BaseEntity`/`SyncableEntity`): optional TS
fields become `Option`, the soft-delete flag (absent treated as false)
becomes `Bool`, and all entity-specific columns are collapsed into one
opaque `payload` field. -/
structure Entity where
  id : String
  created_at : Nat
  updated_at : Nat
  last_sync_at : Option Nat
  is_deleted : Bool
  remote_id : Option String
  payload : String
deriving Repr, DecidableEq

/-- A JS partial entity (`Partial<T>`): a field that is `none` is an
absent key, `some v` a present key with value `v`. -/
structure Patch where
  id : Option String := none
  created_at : Option Nat := none
  updated_at : Option Nat := none
  last_sync_at : Option Nat := none
  is_deleted : Option Bool := none
  remote_id : Option String := none
  payload : Option String := none
deriving Repr, DecidableEq

/-- The spread `{...e}` of a full entity, used when the sync pass passes a
whole remote record to `updateLocal`/`saveLocal`. -/
def Entity.toPatch (e : Entity) : Patch :=
  { id := some e.id
    created_at := some e.created_at
    updated_at := some e.updated_at
    last_sync_at := e.last_sync_at
    is_deleted := some e.is_deleted
    remote_id := e.remote_id
    payload := some e.payload }

/-- `RemoteConfig.features`. -/
structure Features where
  contentSync : Bool
  dynamicFeed : Bool
  notifications : Bool
deriving Repr, DecidableEq

/-- `RemoteConfig`. -/
structure RemoteConfig where
  enabled : Bool
  baseUrl : String
  apiKey : Option String := none
  syncInterval : Nat := 0
  features : Features
deriving Repr, DecidableEq

/-- `Conflict.conflict_type`, `'update' | 'delete'`. -/
inductive ConflictType where
  | update
  | delete
deriving Repr, DecidableEq

/-- `Conflict`. -/
structure Conflict where
  id : String
  table : String
  local_data : Entity
  remote_data : Entity
  conflict_type : ConflictType
deriving Repr, DecidableEq

/-- `SyncResult`. -/
structure SyncResult where
  success : Bool
  conflicts : List Conflict
  updated : Nat
  created : Nat
  deleted : Nat
  errors : List String
deriving Repr, DecidableEq

/-- One table of the local store: the list of its rows in insertion
order (`SELECT` without `ORDER BY` returns them in this order, so
`result[0]` is the first matching row). -/
abbrev Table := List Entity

/-- `getLocal`: `SELECT * FROM t WHERE id = $1 AND (is_deleted IS NULL OR
is_deleted = 0)`, first row or `null`. -/
def getLocal (db : Table) (id : String) : Option Entity :=
  db.find? (fun r => r.id == id && !r.is_deleted)

/-- `saveLocal`: `{...data, id: data.id || generateId(), created_at:
data.created_at || now, updated_at: now, is_deleted: false}`, inserted;
returns the entity and the new table.  `freshId` is the `generateId()`
result, `now` the `getCurrentTimestamp()` result. -/
def saveLocal (db : Table) (data : Patch) (freshId : String) (now : Nat) :
    Entity × Table :=
  let entity : Entity :=
    { id := data.id.getD freshId
      created_at := data.created_at.getD now
      updated_at := now
      last_sync_at := data.last_sync_at
      is_deleted := false
      remote_id := data.remote_id
      payload := data.payload.getD "" }
  (entity, db ++ [entity])

/-- The merged record of `updateLocal`: `{...existing, ...data, id,
updated_at: now}` — keys present in `data` overwrite `existing`, then
`id` is forced back and `updated_at` stamped. -/
def mergeEntity (existing : Entity) (data : Patch) (id : String) (now : Nat) :
    Entity :=
  { id := id
    created_at := data.created_at.getD existing.created_at
    updated_at := now
    last_sync_at := data.last_sync_at.or existing.last_sync_at
    is_deleted := data.is_deleted.getD existing.is_deleted
    remote_id := data.remote_id.or existing.remote_id
    payload := data.payload.getD existing.payload }

/-- `updateLocal`: throws `Record with id <id> not found` when `getLocal`
finds nothing; otherwise the `UPDATE ... WHERE id = $1` sets the keys of
`data` (minus `id`) plus `updated_at` on every row whose `id` matches,
and the merged entity is returned. -/
def updateLocal (db : Table) (id : String) (data : Patch) (now : Nat) :
    Except String (Entity × Table) :=
  match getLocal db id with
  | none => .error ("Record with id " ++ id ++ " not found")
  | some existing =>
    .ok (mergeEntity existing data id now,
      db.map (fun r => if r.id == id then mergeEntity r data r.id now else r))

/-- `deleteLocal`: unconditional `UPDATE t SET is_deleted = 1, updated_at
= $2 WHERE id = $1`; no existence check, no error path. -/
def deleteLocal (db : Table) (id : String) (now : Nat) : Table :=
  db.map (fun r =>
    if r.id == id then { r with is_deleted := true, updated_at := now } else r)

/-- The dirty-record predicate of `getLocalChanges`: `last_sync_at IS
NULL OR updated_at > last_sync_at`. -/
def isDirty (r : Entity) : Bool :=
  match r.last_sync_at with
  | none => true
  | some t => t < r.updated_at

/-- `getLocalChanges`: `SELECT * FROM t WHERE last_sync_at IS NULL OR
updated_at > last_sync_at` (no soft-delete filter). -/
def getLocalChanges (db : Table) : Table :=
  db.filter isDirty

/-- `findLocalByRemoteId`: `SELECT * FROM t WHERE remote_id = $1`
(no soft-delete filter), first row or `null`. -/
def findLocalByRemoteId (db : Table) (remoteId : String) : Option Entity :=
  db.find? (fun r => r.remote_id == some remoteId)

/-- `hasConflict`: `localTime > syncTime && remoteTime > syncTime &&
localTime !== remoteTime`, with `syncTime = local.last_sync_at ?? 0`. -/
def hasConflict (l r : Entity) : Bool :=
  let syncTime := l.last_sync_at.getD 0
  decide (syncTime < l.updated_at) && decide (syncTime < r.updated_at) &&
    decide (l.updated_at ≠ r.updated_at)

/-- Oracle for the external collaborators of one sync pass: the outcomes
of the remote write calls (`updateRemote`/`saveRemote` reject with a
message or fulfil with the parsed response entity), the listing returned
by `getRemoteChanges` (`listRemote` never throws: read failures degrade
to `[]`), the possibility that the dirty-record `select` of
`getLocalChanges` rejects, and the stream of `generateId()` results used
for pull-created locals. -/
structure SyncEnv where
  updateRemoteResp : String → Entity → Except String Entity
  saveRemoteResp : Entity → Except String Entity
  remoteChanges : List Entity
  dirtyFetchErr : Option String := none
  freshIds : Nat → String

/-- The per-record catch of the push loop: `errors.push("Failed to sync
item <id>: <cause>")` and `success = false`. -/
def recordPushErr (res : SyncResult) (id : String) (m : String) : SyncResult :=
  { res with success := false
             errors := res.errors ++ ["Failed to sync item " ++ id ++ ": " ++ m] }

/-- The per-record catch of the pull loop: `errors.push("Failed to merge
remote item <id>: <cause>")` and `success = false`. -/
def recordPullErr (res : SyncResult) (id : String) (m : String) : SyncResult :=
  { res with success := false
             errors := res.errors ++ ["Failed to merge remote item " ++ id ++ ": " ++ m] }

/-- One iteration of the push loop over a dirty `item`, state-passing
version of the mutable `(db, result)`; the second component reports the
error caught by the per-record handler, if any.  Mutations performed
before the throwing call are kept, as in the source (`result.updated++`
precedes the `last_sync_at` stamp). -/
def pushStepE (env : SyncEnv) (now : Nat) (st : Table × SyncResult)
    (item : Entity) : (Table × SyncResult) × Option String :=
  let db := st.1
  let res := st.2
  match item.remote_id with
  | some rid =>
    match env.updateRemoteResp rid item with
    | .error m => ((db, recordPushErr res item.id m), some m)
    | .ok _ =>
      let res1 := { res with updated := res.updated + 1 }
      match updateLocal db item.id { last_sync_at := some now } now with
      | .error m => ((db, recordPushErr res1 item.id m), some m)
      | .ok (_, db1) => ((db1, res1), none)
  | none =>
    match env.saveRemoteResp item with
    | .error m => ((db, recordPushErr res item.id m), some m)
    | .ok remoteItem =>
      match updateLocal db item.id { remote_id := some remoteItem.id } now with
      | .error m => ((db, recordPushErr res item.id m), some m)
      | .ok (_, db1) =>
        let res1 := { res with created := res.created + 1 }
        match updateLocal db1 item.id { last_sync_at := some now } now with
        | .error m => ((db1, recordPushErr res1 item.id m), some m)
        | .ok (_, db2) => ((db2, res1), none)

/-- `pushStepE` with the caught-error report dropped. -/
def pushStep (env : SyncEnv) (now : Nat) (st : Table × SyncResult)
    (item : Entity) : Table × SyncResult :=
  (pushStepE env now st item).1

/-- The push loop: `for (const item of localChanges) { try ... catch ... }`. -/
def pushLoop (env : SyncEnv) (now : Nat) :
    List Entity → Table × SyncResult → Table × SyncResult
  | [], st => st
  | item :: rest, st => pushLoop env now rest (pushStep env now st item)

/-- One iteration of the pull loop over a `remoteItem`; the state also
threads the `generateId()` counter, and the second component reports the
error caught by the per-record handler, if any. -/
def pullStepE (env : SyncEnv) (tbl : String) (now : Nat)
    (st : Table × SyncResult × Nat) (remoteItem : Entity) :
    (Table × SyncResult × Nat) × Option String :=
  let db := st.1
  let res := st.2.1
  let ctr := st.2.2
  match findLocalByRemoteId db remoteItem.id with
  | some localItem =>
    if hasConflict localItem remoteItem then
      ((db, { res with conflicts := res.conflicts ++
          [{ id := localItem.id, table := tbl, local_data := localItem,
             remote_data := remoteItem, conflict_type := ConflictType.update }] },
        ctr), none)
    else
      match updateLocal db localItem.id remoteItem.toPatch now with
      | .error m => ((db, recordPullErr res remoteItem.id m, ctr), some m)
      | .ok (_, db1) =>
        ((db1, { res with updated := res.updated + 1 }, ctr), none)
  | none =>
    let newLocal := { remoteItem.toPatch with
                      remote_id := some remoteItem.id
                      id := some (env.freshIds ctr) }
    let (_, db1) := saveLocal db newLocal (env.freshIds ctr) now
    ((db1, { res with created := res.created + 1 }, ctr + 1), none)

/-- `pullStepE` with the caught-error report dropped. -/
def pullStep (env : SyncEnv) (tbl : String) (now : Nat)
    (st : Table × SyncResult × Nat) (remoteItem : Entity) :
    Table × SyncResult × Nat :=
  (pullStepE env tbl now st remoteItem).1

/-- The pull loop: `for (const remoteItem of remoteChanges) { try ... }`. -/
def pullLoop (env : SyncEnv) (tbl : String) (now : Nat) :
    List Entity → Table × SyncResult × Nat → Table × SyncResult × Nat
  | [], st => st
  | remoteItem :: rest, st => pullLoop env tbl now rest (pullStep env tbl now st remoteItem)

/-- The `SyncResult` initialized at the top of `syncWithRemote`. -/
def initSyncResult : SyncResult :=
  { success := true, conflicts := [], updated := 0, created := 0,
    deleted := 0, errors := [] }

/-- The early return when `!remoteConfig?.enabled ||
!remoteConfig.features.contentSync`. -/
def notEnabledResult : SyncResult :=
  { success := false, conflicts := [], updated := 0, created := 0,
    deleted := 0, errors := ["Remote sync not enabled"] }

/-- `syncWithRemote`: the enablement guard, the push loop over
`getLocalChanges`, then the pull loop over the remote listing; a
rejection of the dirty-record fetch is caught by the top-level handler
as `"Sync failed: <cause>"`.  Returns the final table and the
`SyncResult`; total — nothing escapes to the caller. -/
def syncWithRemote (cfg : Option RemoteConfig) (env : SyncEnv) (tbl : String)
    (db : Table) (now : Nat) : Table × SyncResult :=
  match cfg with
  | none => (db, notEnabledResult)
  | some c =>
    if c.enabled && c.features.contentSync then
      match env.dirtyFetchErr with
      | some m =>
        (db, { initSyncResult with success := false
                                   errors := ["Sync failed: " ++ m] })
      | none =>
        let st1 := pushLoop env now (getLocalChanges db) (db, initSyncResult)
        let st2 := pullLoop env tbl now env.remoteChanges (st1.1, st1.2, 0)
        (st2.1, st2.2.1)
    else
      (db, notEnabledResult)

/-- The `DataManager`'s state: whether `initialize` has run (the two
repositories exist), the in-memory `remoteConfig`, and the two tables. -/
structure ManagerState where
  initialized : Bool
  remoteConfig : Option RemoteConfig := none
  usersDb : Table := []
  todosDb : Table := []

/-- `DataManager.setRemoteConfig`: updates the in-memory config and fans
it out to the repositories (persistence failures are only logged, so the
state update is unconditional). -/
def setRemoteConfig (st : ManagerState) (cfg : RemoteConfig) : ManagerState :=
  { st with remoteConfig := some cfg }

/-- `DataManager.syncAll`: only when `remoteConfig?.enabled &&
remoteConfig.features.contentSync`, runs `syncWithRemote` on the users
repository then on the todos repository, collecting the results keyed by
entity-type name; otherwise returns the empty map.  Returns the result
map and the updated manager state. -/
def syncAll (st : ManagerState) (envU envT : SyncEnv) (now : Nat) :
    List (String × SyncResult) × ManagerState :=
  match st.remoteConfig with
  | some cfg =>
    if cfg.enabled && cfg.features.contentSync then
      if st.initialized then
        let u := syncWithRemote (some cfg) envU "users" st.usersDb now
        let t := syncWithRemote (some cfg) envT "todos" st.todosDb now
        ([("users", u.2), ("todos", t.2)],
         { st with usersDb := u.1, todosDb := t.1 })
      else ([], st)
    else ([], st)
  | none => ([], st)

/-! Concrete sample data used by witnesses and counterexamples. -/

/-- A live (non-deleted) local record already correlated to remote `r9`. -/
def sampleActive : Entity :=
  { id := "a1", created_at := 0, updated_at := 3, last_sync_at := some 1,
    is_deleted := false, remote_id := some "r9", payload := "X" }

/-- A soft-deleted local record correlated to remote `r`. -/
def sampleDeleted : Entity :=
  { id := "a", created_at := 0, updated_at := 1, last_sync_at := some 5,
    is_deleted := true, remote_id := some "r", payload := "p" }

/-- A remote record whose identifier is `r`, not in conflict with
`sampleDeleted` (its local side was not updated since the last sync). -/
def sampleRemote : Entity :=
  { id := "r", created_at := 0, updated_at := 3, last_sync_at := none,
    is_deleted := false, remote_id := none, payload := "q" }

/-- A dirty local record (never synced) with a `remote_id`. -/
def samplePushItem : Entity :=
  { id := "a1", created_at := 0, updated_at := 1, last_sync_at := none,
    is_deleted := false, remote_id := some "r9", payload := "X" }

/-- Environment whose remote writes all reject with `boom`. -/
def envRemoteFail : SyncEnv :=
  { updateRemoteResp := fun _ _ => .error "boom"
    saveRemoteResp := fun _ => .error "boom"
    remoteChanges := []
    freshIds := fun n => "f" ++ toString n }

/-- Environment whose remote writes all succeed, answering with
`sampleRemote`. -/
def envRemoteOk : SyncEnv :=
  { updateRemoteResp := fun _ _ => .ok sampleRemote
    saveRemoteResp := fun _ => .ok sampleRemote
    remoteChanges := []
    freshIds := fun n => "f" ++ toString n }

/-- Environment whose dirty-record fetch rejects with `db down`. -/
def envDirtyFail : SyncEnv :=
  { updateRemoteResp := fun _ _ => .ok sampleRemote
    saveRemoteResp := fun _ => .ok sampleRemote
    remoteChanges := []
    dirtyFetchErr := some "db down"
    freshIds := fun n => "f" ++ toString n }

/-- A local record independently modified since its last sync at `1`. -/
def sampleConflictLocal : Entity :=
  { id := "c1", created_at := 0, updated_at := 4, last_sync_at := some 1,
    is_deleted := false, remote_id := some "rc", payload := "L" }

/-- A remote record for `sampleConflictLocal`, also modified since that
sync and disagreeing with it. -/
def sampleConflictRemote : Entity :=
  { id := "rc", created_at := 0, updated_at := 6, last_sync_at := none,
    is_deleted := false, remote_id := none, payload := "R" }

/-- A soft-deleted, never-synced local record without a `remote_id`. -/
def sampleDeletedNoRid : Entity :=
  { id := "a", created_at := 0, updated_at := 1, last_sync_at := none,
    is_deleted := true, remote_id := none, payload := "p" }

/-- A config with remote enabled and `contentSync` on. -/
def cfgOn : RemoteConfig :=
  { enabled := true, baseUrl := "http://h"
    features := { contentSync := true, dynamicFeed := false, notifications := false } }

/-- `cfgOn` with the `enabled` flag cleared. -/
def cfgOff : RemoteConfig :=
  { cfgOn with enabled := false }

/-- An initialized manager with no remote config loaded. -/
def mgrInit : ManagerState := { initialized := true }

/-- An initialized manager holding the enabled config. -/
def mgrOn : ManagerState := { initialized := true, remoteConfig := some cfgOn }

/-! Helper lemmas shared by several claims. -/

/-- The push step never touches the `deleted` counter or the conflict
list. -/
theorem pushStep_res_inv (env : SyncEnv) (now : Nat) (db : Table)
    (res : SyncResult) (item : Entity) :
    (pushStep env now (db, res) item).2.deleted = res.deleted ∧
    (pushStep env now (db, res) item).2.conflicts = res.conflicts := by
  unfold pushStep pushStepE
  dsimp only
  repeat' split <;> (try exact ⟨rfl, rfl⟩)

/-- The push loop never touches the `deleted` counter or the conflict
list. -/
theorem pushLoop_res_inv (env : SyncEnv) (now : Nat) :
    ∀ (items : List Entity) (db : Table) (res : SyncResult),
      (pushLoop env now items (db, res)).2.deleted = res.deleted ∧
      (pushLoop env now items (db, res)).2.conflicts = res.conflicts
  | [], _, _ => ⟨rfl, rfl⟩
  | item :: rest, db, res => by
    have h1 := pushStep_res_inv env now db res item
    have h2 := pushLoop_res_inv env now rest (pushStep env now (db, res) item).1
      (pushStep env now (db, res) item).2
    simpa [pushLoop, h1.1, h1.2] using h2

/-- The pull step never touches the `deleted` counter, and only ever
appends conflicts of type `update`. -/
theorem pullStep_res_inv (env : SyncEnv) (tbl : String) (now : Nat)
    (db : Table) (res : SyncResult) (ctr : Nat) (r : Entity) :
    (pullStep env tbl now (db, res, ctr) r).2.1.deleted = res.deleted ∧
    ((res.conflicts.all fun c => decide (c.conflict_type = ConflictType.update)) = true →
      ((pullStep env tbl now (db, res, ctr) r).2.1.conflicts.all
        fun c => decide (c.conflict_type = ConflictType.update)) = true) := by
  unfold pullStep pullStepE
  dsimp only
  repeat' split <;> (try exact ⟨rfl, fun h => h⟩)
  all_goals simp [recordPullErr, List.all_append]

/-- The pull loop never touches the `deleted` counter, and only ever
appends conflicts of type `update`. -/
theorem pullLoop_res_inv (env : SyncEnv) (tbl : String) (now : Nat) :
    ∀ (items : List Entity) (db : Table) (res : SyncResult) (ctr : Nat),
      (pullLoop env tbl now items (db, res, ctr)).2.1.deleted = res.deleted ∧
      ((res.conflicts.all fun c => decide (c.conflict_type = ConflictType.update)) = true →
        ((pullLoop env tbl now items (db, res, ctr)).2.1.conflicts.all
          fun c => decide (c.conflict_type = ConflictType.update)) = true)
  | [], _, _, _ => ⟨rfl, fun h => h⟩
  | r :: rest, db, res, ctr => by
    have h1 := pullStep_res_inv env tbl now db res ctr r
    have h2 := pullLoop_res_inv env tbl now rest
      (pullStep env tbl now (db, res, ctr) r).1
      (pullStep env tbl now (db, res, ctr) r).2.1
      (pullStep env tbl now (db, res, ctr) r).2.2
    constructor
    · simpa [pullLoop, h1.1] using h2.1
    · intro h
      simpa [pullLoop] using h2.2 (h1.2 h)

/-! Claim theorems. -/

/-- C9: every `SyncResult` returned by `syncWithRemote` has `deleted = 0`,
and every `Conflict` it produces has `conflict_type = update`: no path in
the sync pass increments the `deleted` counter or emits a delete-type
conflict. -/
theorem syncWithRemote_no_deletes_c9 (cfg : Option RemoteConfig) (env : SyncEnv)
    (tbl : String) (db : Table) (now : Nat) :
    (syncWithRemote cfg env tbl db now).2.deleted = 0 ∧
    ((syncWithRemote cfg env tbl db now).2.conflicts.all
      fun c => decide (c.conflict_type = ConflictType.update)) = true := by
  unfold syncWithRemote
  match cfg with
  | none => exact ⟨rfl, rfl⟩
  | some c =>
    dsimp only
    split
    · split
      · exact ⟨rfl, rfl⟩
      · have hp := pushLoop_res_inv env now (getLocalChanges db) db initSyncResult
        have hq := pullLoop_res_inv env tbl now env.remoteChanges
          (pushLoop env now (getLocalChanges db) (db, initSyncResult)).1
          (pushLoop env now (getLocalChanges db) (db, initSyncResult)).2 0
        constructor
        · exact hq.1.trans hp.1
        · refine hq.2 ?_
          rw [hp.2]
          rfl
    · exact ⟨rfl, rfl⟩

/-- C7: `deleteLocal` sets `is_deleted = true` and stamps `updated_at` on
every record with the given id, and is idempotent: a second call (at any
later clock reading) is absorbed, so both calls yield the same final
`is_deleted = true` state; being a total function into `Table`, neither
call can raise. -/
theorem deleteLocal_idempotent_c7 (db : Table) (id : String) (t1 t2 : Nat) :
    deleteLocal (deleteLocal db id t1) id t2 = deleteLocal db id t2 ∧
    ((deleteLocal db id t1).all
      fun r => !(r.id == id) || (r.is_deleted && r.updated_at == t1)) = true := by
  constructor
  · induction db with
    | nil => rfl
    | cons a as ih =>
      unfold deleteLocal at ih ⊢
      simp only [List.map_cons]
      rw [ih]
      congr 1
      by_cases h : a.id == id <;> simp [h]
  · unfold deleteLocal
    rw [List.all_map, List.all_eq_true]
    intro r _
    by_cases h : r.id == id <;> simp [Function.comp, h]

/-- C10: `deleteLocal` issues an unconditional UPDATE with no existence
check, so when no record carries the given id it completes without error
and changes nothing (and, being total, it never raises `NotFound` for any
input id). -/
theorem deleteLocal_missing_noop_c10 (db : Table) (id : String) (now : Nat)
    (h : (db.all fun r => !(r.id == id)) = true) :
    deleteLocal db id now = db := by
  induction db with
  | nil => rfl
  | cons a as ih =>
    rw [List.all_cons, Bool.and_eq_true] at h
    unfold deleteLocal at ih ⊢
    rw [List.map_cons, ih h.2]
    have ha : (a.id == id) = false := by
      cases hc : a.id == id
      · rfl
      · rw [hc] at h; exact absurd h.1 (by decide)
    rw [ha]
    simp

/-- C10 witness: deleting an id absent from the table leaves it unchanged. -/
theorem deleteLocal_missing_noop_c10_witness :
    deleteLocal [sampleActive] "zzz" 7 = [sampleActive] :=
  deleteLocal_missing_noop_c10 [sampleActive] "zzz" 7 (by decide)

/-- C5 counterexample: `saveLocal` stamps `updated_at` to now even when
the input carries an explicit `updated_at` — the claim's "only when
absent" fails: with input `updated_at = 5` and clock `10`, the stored
entity carries `10`, not `5`. -/
theorem saveLocal_overrides_updated_at_c5 :
    (saveLocal [] { updated_at := some 5 } "u0" 10).1.updated_at = 10 ∧
    (10 : Nat) ≠ 5 := ⟨rfl, by decide⟩

/-- C5 amended: `saveLocal` assigns the freshly generated id when the
input has none, stamps `created_at` to now only when absent, always
stamps `updated_at` to now, forces `is_deleted = false`, inserts, and
returns the full stored entity; a call without an explicit id and
without an explicit `created_at` returns `created_at = updated_at`. -/
theorem saveLocal_spec_c5 (db : Table) (data : Patch) (freshId : String) (now : Nat) :
    (saveLocal db data freshId now).1.id = data.id.getD freshId ∧
    (saveLocal db data freshId now).1.created_at = data.created_at.getD now ∧
    (saveLocal db data freshId now).1.updated_at = now ∧
    (saveLocal db data freshId now).1.is_deleted = false ∧
    (saveLocal db data freshId now).2 = db ++ [(saveLocal db data freshId now).1] ∧
    (data.id = none → data.created_at = none →
      (saveLocal db data freshId now).1.created_at =
        (saveLocal db data freshId now).1.updated_at) := by
  refine ⟨rfl, rfl, rfl, rfl, rfl, ?_⟩
  intro _ h2
  simp [saveLocal, h2]

/-- C5 witness: saving an empty partial yields the generated id and
`created_at = updated_at`. -/
theorem saveLocal_spec_c5_witness :
    (saveLocal [] {} "u1" 7).1.created_at = (saveLocal [] {} "u1" 7).1.updated_at ∧
    (saveLocal [] {} "u1" 7).1.id = "u1" :=
  ⟨(saveLocal_spec_c5 [] {} "u1" 7).2.2.2.2.2 rfl rfl,
   (saveLocal_spec_c5 [] {} "u1" 7).1⟩

/-- C4 counterexample: a record with id `a` exists (soft-deleted), yet
`updateLocal` still fails with the NotFound error — refuting the claim's
reading that an existing record, deleted or not, suffices. -/
theorem updateLocal_deleted_notfound_c4 :
    sampleDeleted.id = "a" ∧ sampleDeleted.is_deleted = true ∧
    updateLocal [sampleDeleted] "a" {} 7 =
      .error ("Record with id " ++ "a" ++ " not found") :=
  ⟨rfl, rfl, rfl⟩

/-- C4 amended: `updateLocal(id, partial)` fails with NotFound exactly
when no existing non-deleted record is found for that id; on success it
merges the partial over the existing fields, never lets the id change
even when the partial carries a different id, stamps `updated_at` to
now, and the returned `updated_at` is strictly greater than the
pre-update value whenever the clock has advanced past it. -/
theorem updateLocal_spec_c4 (db : Table) (id : String) (data : Patch) (now : Nat) :
    (getLocal db id = none →
      updateLocal db id data now = .error ("Record with id " ++ id ++ " not found")) ∧
    (∀ e, getLocal db id = some e →
      updateLocal db id data now =
        .ok (mergeEntity e data id now,
          db.map fun r => if r.id == id then mergeEntity r data r.id now else r) ∧
      (mergeEntity e data id now).id = id ∧
      (mergeEntity e data id now).updated_at = now ∧
      (mergeEntity e data id now).payload = data.payload.getD e.payload ∧
      (mergeEntity e data id now).created_at = data.created_at.getD e.created_at ∧
      (e.updated_at < now → e.updated_at < (mergeEntity e data id now).updated_at)) := by
  constructor
  · intro h
    unfold updateLocal
    rw [h]
  · intro e h
    unfold updateLocal
    rw [h]
    exact ⟨rfl, rfl, rfl, rfl, rfl, fun hlt => hlt⟩

/-- C4 witness: updating a live record with a partial that tries to
smuggle a different id keeps the original id and strictly bumps
`updated_at`. -/
theorem updateLocal_spec_c4_witness :
    updateLocal [sampleActive] "a1" { id := some "zzz", payload := some "Y" } 9 =
      .ok (mergeEntity sampleActive { id := some "zzz", payload := some "Y" } "a1" 9,
        [mergeEntity sampleActive { id := some "zzz", payload := some "Y" } "a1" 9]) ∧
    (mergeEntity sampleActive { id := some "zzz", payload := some "Y" } "a1" 9).id = "a1" ∧
    sampleActive.updated_at <
      (mergeEntity sampleActive { id := some "zzz", payload := some "Y" } "a1" 9).updated_at := by
  have h := (updateLocal_spec_c4 [sampleActive] "a1"
    { id := some "zzz", payload := some "Y" } 9).2 sampleActive rfl
  exact ⟨by rw [h.1]; rfl, h.2.1, h.2.2.2.2.2 (by decide)⟩

/-- helper: an `updateLocal` write whose patch does not touch
`is_deleted` keeps the record findable by `getLocal`, and the found row
becomes the merged one. -/
theorem getLocal_map_update (db : Table) (id : String) (data : Patch) (now : Nat)
    (hdel : data.is_deleted = none) (e : Entity) (h : getLocal db id = some e) :
    getLocal (db.map fun r => if r.id == id then mergeEntity r data r.id now else r) id
      = some (mergeEntity e data id now) := by
  induction db with
  | nil => simp [getLocal] at h
  | cons a as ih =>
    unfold getLocal at h ih ⊢
    by_cases hpa : (a.id == id && !a.is_deleted) = true
    · rw [@List.find?_cons_of_pos Entity (fun r => r.id == id && !r.is_deleted) a as hpa] at h
      have hpa' : (a.id == id) = true ∧ (!a.is_deleted) = true := by
        rw [← Bool.and_eq_true]; exact hpa
      have hid : (a.id == id) = true := hpa'.1
      have hnd : a.is_deleted = false := by
        have hx := hpa'.2
        cases hd : a.is_deleted
        · rfl
        · rw [hd] at hx; exact absurd hx (by decide)
      have he : a = e := by injection h
      rw [List.map_cons]
      have hhead : (if (a.id == id) = true then mergeEntity a data a.id now else a)
          = mergeEntity a data a.id now := by rw [hid]; simp
      rw [hhead]
      rw [List.find?_cons_of_pos]
      · have hid' : a.id = id := by
          have := hid
          simpa using this
        rw [he] at hid' ⊢
        rw [hid']
      · simp [mergeEntity, hdel, hid, hnd]
    · rw [@List.find?_cons_of_neg Entity (fun r => r.id == id && !r.is_deleted) a as hpa] at h
      rw [List.map_cons]
      rw [List.find?_cons_of_neg]
      · exact ih h
      · by_cases hid : (a.id == id) = true
        · have hdelT : a.is_deleted = true := by
            cases hd : a.is_deleted
            · exfalso; apply hpa; rw [Bool.and_eq_true]; exact ⟨hid, by rw [hd]; rfl⟩
            · rfl
          simp [hid, mergeEntity, hdel, hdelT]
        · simp [hid]

/-- helper: after the UPDATE of a patch carrying `last_sync_at = now`,
every row with the given id carries `last_sync_at = now`. -/
theorem all_stamped_after_update (db : Table) (id : String) (data : Patch)
    (now : Nat) (h : data.last_sync_at = some now) :
    ((db.map fun r => if r.id == id then mergeEntity r data r.id now else r).all
      fun rcd => !(rcd.id == id) || (rcd.last_sync_at == some now)) = true := by
  rw [List.all_map, List.all_eq_true]
  intro r _
  by_cases hid : (r.id == id) = true
  · simp [Function.comp, hid, mergeEntity, h, Option.or]
  · simp [Function.comp, hid]

/-- C1 counterexample: the remote record `r` matches the soft-deleted
local record `a` by `remote_id`, the conflict condition does not hold,
yet the pull step does not apply the remote fields nor increment
`updated` — `updateLocal` throws NotFound and a per-record error is
recorded instead, refuting the claim's unconditional "is applied ...
and incremented" branch. -/
theorem pullStep_deleted_no_update_c1 :
    hasConflict sampleDeleted sampleRemote = false ∧
    findLocalByRemoteId [sampleDeleted] sampleRemote.id = some sampleDeleted ∧
    pullStep envRemoteOk "todos" 9 ([sampleDeleted], initSyncResult, 0) sampleRemote =
      ([sampleDeleted],
       recordPullErr initSyncResult "r" ("Record with id " ++ "a" ++ " not found"), 0) :=
  ⟨rfl, rfl, rfl⟩

/-- C1 amended: for a remote record matched to a local record by
`remote_id`, a conflict is emitted iff `local.updated_at > syncTime AND
remote.updated_at > syncTime AND local.updated_at ≠ remote.updated_at`
with `syncTime = local.last_sync_at` (or 0); when it holds, exactly one
`update`-type conflict is appended and the table is untouched; when it
does not hold, the remote fields are applied via `updateLocal` and
`updated` is incremented provided `updateLocal` succeeds (a non-deleted
record with that id exists), while a soft-deleted match makes
`updateLocal` throw NotFound, recorded as a per-record error with the
table unchanged. -/
theorem pullStep_conflict_iff_c1 (env : SyncEnv) (tbl : String) (now : Nat)
    (db : Table) (res : SyncResult) (ctr : Nat) (r l : Entity)
    (hfind : findLocalByRemoteId db r.id = some l) :
    (hasConflict l r = true ↔
      (l.last_sync_at.getD 0 < l.updated_at ∧ l.last_sync_at.getD 0 < r.updated_at ∧
        l.updated_at ≠ r.updated_at)) ∧
    ((pullStep env tbl now (db, res, ctr) r).2.1.conflicts ≠ res.conflicts ↔
      hasConflict l r = true) ∧
    (hasConflict l r = true →
      pullStep env tbl now (db, res, ctr) r =
        (db, { res with conflicts := res.conflicts ++
            [{ id := l.id, table := tbl, local_data := l, remote_data := r,
               conflict_type := ConflictType.update }] }, ctr)) ∧
    (hasConflict l r = false → ∀ e db1,
      updateLocal db l.id r.toPatch now = .ok (e, db1) →
      pullStep env tbl now (db, res, ctr) r =
        (db1, { res with updated := res.updated + 1 }, ctr)) ∧
    (hasConflict l r = false → ∀ m,
      updateLocal db l.id r.toPatch now = .error m →
      pullStep env tbl now (db, res, ctr) r = (db, recordPullErr res r.id m, ctr)) := by
  refine ⟨?_, ?_, ?_, ?_, ?_⟩
  · simp only [hasConflict, Bool.and_eq_true, decide_eq_true_eq]
    exact and_assoc
  · constructor
    · intro hne
      by_contra hc
      have hc' : hasConflict l r = false := by
        cases hx : hasConflict l r
        · rfl
        · exact absurd hx hc
      apply hne
      unfold pullStep pullStepE
      dsimp only
      rw [hfind]
      dsimp only
      rw [hc']
      split
      · simp_all
      · split <;> rfl
    · intro hc heq
      unfold pullStep pullStepE at heq
      dsimp only at heq
      rw [hfind] at heq
      dsimp only at heq
      rw [hc] at heq
      simp only [if_true] at heq
      have hlen := congrArg List.length heq
      simp at hlen
  · intro hc
    unfold pullStep pullStepE
    dsimp only
    rw [hfind]
    dsimp only
    rw [hc]
    simp
  · intro hc e db1 hupd
    unfold pullStep pullStepE
    dsimp only
    rw [hfind]
    dsimp only
    rw [hc, hupd]
    simp
  · intro hc m hupd
    unfold pullStep pullStepE
    dsimp only
    rw [hfind]
    dsimp only
    rw [hc, hupd]
    simp

/-- C1 witness: on a genuinely conflicting pair the pull step appends
exactly that one `update` conflict and leaves the table untouched. -/
theorem pullStep_conflict_iff_c1_witness :
    pullStep envRemoteOk "todos" 9 ([sampleConflictLocal], initSyncResult, 0)
        sampleConflictRemote =
      ([sampleConflictLocal],
       { initSyncResult with conflicts :=
          [{ id := sampleConflictLocal.id, table := "todos",
             local_data := sampleConflictLocal, remote_data := sampleConflictRemote,
             conflict_type := ConflictType.update }] }, 0) := by
  have h := (pullStep_conflict_iff_c1 envRemoteOk "todos" 9 [sampleConflictLocal]
    initSyncResult 0 sampleConflictRemote sampleConflictLocal rfl).2.2.1 (by decide)
  exact h

/-- C2 counterexample: a dirty record whose remote update fails keeps
`last_sync_at = none` after the push step — the stamp is skipped on
remote failure, refuting the claim's "regardless of the outcome". -/
theorem pushStep_no_stamp_on_failure_c2 :
    isDirty samplePushItem = true ∧
    samplePushItem.last_sync_at = none ∧
    pushStep envRemoteFail 9 ([samplePushItem], initSyncResult) samplePushItem =
      ([samplePushItem], recordPushErr initSyncResult "a1" "boom") :=
  ⟨rfl, rfl, rfl⟩

/-- C2 amended: in the push phase, a dirty record's `last_sync_at` is
stamped to now exactly when the remote write step succeeds (and the
record is still locally updatable): on remote update/create failure the
per-record catch records the error and the table — including
`last_sync_at` — is left unchanged; on success every row with the
record's id carries `last_sync_at = now` and the corresponding counter
is incremented. -/
theorem pushStep_stamp_c2 (env : SyncEnv) (now : Nat) (db : Table)
    (res : SyncResult) (item : Entity) :
    (∀ rid m, item.remote_id = some rid → env.updateRemoteResp rid item = .error m →
      pushStep env now (db, res) item = (db, recordPushErr res item.id m)) ∧
    (∀ m, item.remote_id = none → env.saveRemoteResp item = .error m →
      pushStep env now (db, res) item = (db, recordPushErr res item.id m)) ∧
    (∀ rid u e, item.remote_id = some rid → env.updateRemoteResp rid item = .ok u →
      getLocal db item.id = some e →
      ((pushStep env now (db, res) item).1.all
        fun rcd => !(rcd.id == item.id) || (rcd.last_sync_at == some now)) = true ∧
      (pushStep env now (db, res) item).2 = { res with updated := res.updated + 1 }) ∧
    (∀ u e, item.remote_id = none → env.saveRemoteResp item = .ok u →
      getLocal db item.id = some e →
      ((pushStep env now (db, res) item).1.all
        fun rcd => !(rcd.id == item.id) || (rcd.last_sync_at == some now)) = true ∧
      (pushStep env now (db, res) item).2 = { res with created := res.created + 1 }) := by
  refine ⟨?_, ?_, ?_, ?_⟩
  · intro rid m h1 h2
    unfold pushStep pushStepE
    dsimp only
    rw [h1]
    dsimp only
    rw [h2]
  · intro m h1 h2
    unfold pushStep pushStepE
    dsimp only
    rw [h1]
    dsimp only
    rw [h2]
  · intro rid u e h1 h2 h3
    have heq1 : updateLocal db item.id { last_sync_at := some now } now =
        .ok (mergeEntity e { last_sync_at := some now } item.id now,
          db.map fun rc =>
            if rc.id == item.id then mergeEntity rc { last_sync_at := some now } rc.id now
            else rc) := by
      unfold updateLocal
      rw [h3]
    unfold pushStep pushStepE
    dsimp only
    rw [h1]
    dsimp only
    rw [h2]
    dsimp only
    rw [heq1]
    exact ⟨all_stamped_after_update db item.id { last_sync_at := some now } now rfl, rfl⟩
  · intro u e h1 h2 h3
    have heq1 : updateLocal db item.id { remote_id := some u.id } now =
        .ok (mergeEntity e { remote_id := some u.id } item.id now,
          db.map fun rc =>
            if rc.id == item.id then mergeEntity rc { remote_id := some u.id } rc.id now
            else rc) := by
      unfold updateLocal
      rw [h3]
    have hget2 := getLocal_map_update db item.id { remote_id := some u.id } now rfl e h3
    have heq2 : updateLocal
        (db.map fun rc =>
          if rc.id == item.id then mergeEntity rc { remote_id := some u.id } rc.id now
          else rc) item.id { last_sync_at := some now } now =
        .ok (mergeEntity (mergeEntity e { remote_id := some u.id } item.id now)
              { last_sync_at := some now } item.id now,
          (db.map fun rc =>
            if rc.id == item.id then mergeEntity rc { remote_id := some u.id } rc.id now
            else rc).map fun rc =>
              if rc.id == item.id then mergeEntity rc { last_sync_at := some now } rc.id now
              else rc) := by
      unfold updateLocal
      rw [hget2]
    unfold pushStep pushStepE
    dsimp only
    rw [h1]
    dsimp only
    rw [h2]
    dsimp only
    rw [heq1]
    dsimp only
    rw [heq2]
    refine ⟨?_, rfl⟩
    exact all_stamped_after_update _ item.id { last_sync_at := some now } now rfl

/-- C2 witness: with the remote update succeeding, the push step stamps
the record's `last_sync_at` and counts one update. -/
theorem pushStep_stamp_c2_witness :
    ((pushStep envRemoteOk 9 ([samplePushItem], initSyncResult) samplePushItem).1.all
      fun rcd => !(rcd.id == samplePushItem.id) || (rcd.last_sync_at == some 9)) = true ∧
    (pushStep envRemoteOk 9 ([samplePushItem], initSyncResult) samplePushItem).2 =
      { initSyncResult with updated := 1 } := by
  have h := (pushStep_stamp_c2 envRemoteOk 9 [samplePushItem] initSyncResult
    samplePushItem).2.2.1 "r9" sampleRemote samplePushItem rfl rfl rfl
  exact ⟨h.1, h.2⟩

/-- helper: with unique ids, a soft-deleted record (however it was
looked up) is invisible to `getLocal`. -/
theorem getLocal_none_of_deleted_nodup (db : Table) (l : Entity)
    (hmem : l ∈ db) (hdel : l.is_deleted = true)
    (hnd : (db.map Entity.id).Nodup) : getLocal db l.id = none := by
  unfold getLocal
  rw [List.find?_eq_none]
  intro r hr
  by_cases hid : r.id = l.id
  · have hrl : r = l := List.inj_on_of_nodup_map hnd hr hmem hid
    rw [hrl, hdel]
    simp
  · simp [hid]

/-- C3: `syncWithRemote` is a total function into `SyncResult`, so it
never raises to its caller; a failure of the dirty-record fetch is
caught at the top level as the single entry `Sync failed: <cause>` with
`success = false`; and any per-record failure in the push or pull loop
is caught by the per-record handler — it sets `success = false` and
appends exactly one error message — while the loop equations show the
remaining records are still processed. -/
theorem syncWithRemote_error_capture_c3 :
    (∀ (c : RemoteConfig) (env : SyncEnv) (tbl : String) (db : Table) (now : Nat) (m : String),
      c.enabled = true → c.features.contentSync = true → env.dirtyFetchErr = some m →
      syncWithRemote (some c) env tbl db now =
        (db, { initSyncResult with success := false, errors := ["Sync failed: " ++ m] })) ∧
    (∀ (env : SyncEnv) (now : Nat) (st : Table × SyncResult) (item : Entity)
        (rest : List Entity) (m : String),
      (pushStepE env now st item).2 = some m →
      ((pushStepE env now st item).1.2.success = false ∧
       (pushStepE env now st item).1.2.errors =
         st.2.errors ++ ["Failed to sync item " ++ item.id ++ ": " ++ m]) ∧
      pushLoop env now (item :: rest) st = pushLoop env now rest (pushStep env now st item)) ∧
    (∀ (env : SyncEnv) (tbl : String) (now : Nat) (st : Table × SyncResult × Nat)
        (r : Entity) (rest : List Entity) (m : String),
      (pullStepE env tbl now st r).2 = some m →
      ((pullStepE env tbl now st r).1.2.1.success = false ∧
       (pullStepE env tbl now st r).1.2.1.errors =
         st.2.1.errors ++ ["Failed to merge remote item " ++ r.id ++ ": " ++ m]) ∧
      pullLoop env tbl now (r :: rest) st = pullLoop env tbl now rest (pullStep env tbl now st r)) := by
  refine ⟨?_, ?_, ?_⟩
  · intro c env tbl db now m h1 h2 h3
    unfold syncWithRemote
    dsimp only
    rw [h1, h2, h3]
    simp
  · intro env now st item rest m h
    refine ⟨?_, rfl⟩
    revert h
    unfold pushStepE
    dsimp only
    (repeat' split) <;> intro h <;> simp_all [recordPushErr]
  · intro env tbl now st r rest m h
    refine ⟨?_, rfl⟩
    revert h
    unfold pullStepE
    dsimp only
    (repeat' split) <;> intro h <;> simp_all [recordPullErr]

/-- C3 witness: the top-level catch on a failing dirty fetch, and the
loop continuations after a failing push record and a failing pull
record. -/
theorem syncWithRemote_error_capture_c3_witness :
    syncWithRemote (some cfgOn) envDirtyFail "todos" [] 0 =
      ([], { initSyncResult with success := false, errors := ["Sync failed: " ++ "db down"] }) ∧
    pushLoop envRemoteFail 9 [samplePushItem] ([samplePushItem], initSyncResult) =
      pushLoop envRemoteFail 9 []
        (pushStep envRemoteFail 9 ([samplePushItem], initSyncResult) samplePushItem) ∧
    pullLoop envRemoteOk "todos" 9 [sampleRemote] ([sampleDeleted], initSyncResult, 0) =
      pullLoop envRemoteOk "todos" 9 []
        (pullStep envRemoteOk "todos" 9 ([sampleDeleted], initSyncResult, 0) sampleRemote) := by
  have h := syncWithRemote_error_capture_c3
  refine ⟨h.1 cfgOn envDirtyFail "todos" [] 0 "db down" rfl rfl rfl, ?_, ?_⟩
  · exact (h.2.1 envRemoteFail 9 ([samplePushItem], initSyncResult)
      samplePushItem [] "boom" rfl).2
  · exact (h.2.2 envRemoteOk "todos" 9 ([sampleDeleted], initSyncResult, 0)
      sampleRemote [] ("Record with id " ++ "a" ++ " not found") rfl).2

/-- C6: `syncAll` syncs the registered repositories (users then todos)
and returns the name-keyed result map only when the remote config is
enabled and `contentSync` is on; after `setRemoteConfig` with
`enabled = false` — or with `contentSync` off — it returns the empty map
and attempts no repository sync (state unchanged). -/
theorem syncAll_gating_c6 :
    (∀ (st : ManagerState) (cfg : RemoteConfig) (envU envT : SyncEnv) (now : Nat),
      cfg.enabled = false →
      syncAll (setRemoteConfig st cfg) envU envT now = ([], setRemoteConfig st cfg)) ∧
    (∀ (st : ManagerState) (cfg : RemoteConfig) (envU envT : SyncEnv) (now : Nat),
      st.remoteConfig = some cfg → cfg.features.contentSync = false →
      syncAll st envU envT now = ([], st)) ∧
    (∀ (st : ManagerState) (cfg : RemoteConfig) (envU envT : SyncEnv) (now : Nat),
      st.remoteConfig = some cfg → cfg.enabled = true →
      cfg.features.contentSync = true → st.initialized = true →
      syncAll st envU envT now =
        ([("users", (syncWithRemote (some cfg) envU "users" st.usersDb now).2),
          ("todos", (syncWithRemote (some cfg) envT "todos" st.todosDb now).2)],
         { st with usersDb := (syncWithRemote (some cfg) envU "users" st.usersDb now).1,
                   todosDb := (syncWithRemote (some cfg) envT "todos" st.todosDb now).1 })) := by
  refine ⟨?_, ?_, ?_⟩
  · intro st cfg envU envT now h
    unfold syncAll setRemoteConfig
    dsimp only
    rw [h]
    simp
  · intro st cfg envU envT now h1 h2
    unfold syncAll
    rw [h1]
    dsimp only
    rw [h2]
    simp
  · intro st cfg envU envT now h1 h2 h3 h4
    unfold syncAll
    rw [h1]
    dsimp only
    rw [h2, h3, h4]
    simp

/-- C6 witness: a disabled config yields the empty result map; the
enabled config yields the two-entry map of per-repository results. -/
theorem syncAll_gating_c6_witness :
    syncAll (setRemoteConfig mgrInit cfgOff) envRemoteOk envRemoteOk 0 =
      ([], setRemoteConfig mgrInit cfgOff) ∧
    syncAll mgrOn envRemoteOk envRemoteOk 0 =
      ([("users", (syncWithRemote (some cfgOn) envRemoteOk "users" mgrOn.usersDb 0).2),
        ("todos", (syncWithRemote (some cfgOn) envRemoteOk "todos" mgrOn.todosDb 0).2)],
       { mgrOn with
         usersDb := (syncWithRemote (some cfgOn) envRemoteOk "users" mgrOn.usersDb 0).1,
         todosDb := (syncWithRemote (some cfgOn) envRemoteOk "todos" mgrOn.todosDb 0).1 }) := by
  have h := syncAll_gating_c6
  exact ⟨h.1 mgrInit cfgOff envRemoteOk envRemoteOk 0 rfl,
         h.2.2 mgrOn cfgOn envRemoteOk envRemoteOk 0 rfl rfl rfl rfl⟩

/-- C8: the dirty-record selection does not exclude soft-deleted records;
and every write-back of the sync pass aimed at a record invisible to
`getLocal` — the `last_sync_at` stamp after a successful remote update,
the `remote_id` persist after a successful remote create, and the pull
merge onto a soft-deleted local record (found by `findLocalByRemoteId`,
which does not filter `is_deleted`) — throws NotFound, which the
per-record handler records as an error with `success = false`, leaving
the table (hence the soft-deleted record) unchanged. -/
theorem sync_deleted_writeback_c8 :
    (∀ (db : Table) (e : Entity), e ∈ db → isDirty e = true → e ∈ getLocalChanges db) ∧
    (∀ (env : SyncEnv) (now : Nat) (db : Table) (res : SyncResult) (item : Entity)
        (rid : String) (u : Entity),
      item.remote_id = some rid → env.updateRemoteResp rid item = .ok u →
      getLocal db item.id = none →
      pushStep env now (db, res) item =
        (db, recordPushErr { res with updated := res.updated + 1 } item.id
          ("Record with id " ++ item.id ++ " not found"))) ∧
    (∀ (env : SyncEnv) (now : Nat) (db : Table) (res : SyncResult) (item u : Entity),
      item.remote_id = none → env.saveRemoteResp item = .ok u →
      getLocal db item.id = none →
      pushStep env now (db, res) item =
        (db, recordPushErr res item.id ("Record with id " ++ item.id ++ " not found"))) ∧
    (∀ (env : SyncEnv) (tbl : String) (now : Nat) (db : Table) (res : SyncResult)
        (ctr : Nat) (r l : Entity),
      findLocalByRemoteId db r.id = some l → l.is_deleted = true →
      (db.map Entity.id).Nodup → hasConflict l r = false →
      pullStep env tbl now (db, res, ctr) r =
        (db, recordPullErr res r.id ("Record with id " ++ l.id ++ " not found"), ctr)) := by
  refine ⟨?_, ?_, ?_, ?_⟩
  · intro db e hmem hdirty
    unfold getLocalChanges
    exact List.mem_filter.2 ⟨hmem, hdirty⟩
  · intro env now db res item rid u h1 h2 h3
    have hupd : updateLocal db item.id { last_sync_at := some now } now =
        .error ("Record with id " ++ item.id ++ " not found") := by
      unfold updateLocal
      rw [h3]
    unfold pushStep pushStepE
    dsimp only
    rw [h1]
    dsimp only
    rw [h2]
    dsimp only
    rw [hupd]
  · intro env now db res item u h1 h2 h3
    have hupd : updateLocal db item.id { remote_id := some u.id } now =
        .error ("Record with id " ++ item.id ++ " not found") := by
      unfold updateLocal
      rw [h3]
    unfold pushStep pushStepE
    dsimp only
    rw [h1]
    dsimp only
    rw [h2]
    dsimp only
    rw [hupd]
  · intro env tbl now db res ctr r l hfind hdel hnd hc
    have hmem : l ∈ db := List.mem_of_find?_eq_some hfind
    have hget : getLocal db l.id = none := getLocal_none_of_deleted_nodup db l hmem hdel hnd
    have hupd : updateLocal db l.id r.toPatch now =
        .error ("Record with id " ++ l.id ++ " not found") := by
      unfold updateLocal
      rw [hget]
    unfold pullStep pullStepE
    dsimp only
    rw [hfind]
    dsimp only
    rw [hc, hupd]
    simp

/-- C8 witness: a deleted record is selected as dirty; both push
write-back paths and the pull merge fail with NotFound on soft-deleted
targets, recorded as errors with the table unchanged. -/
theorem sync_deleted_writeback_c8_witness :
    sampleDeletedNoRid ∈ getLocalChanges [sampleDeletedNoRid] ∧
    pushStep envRemoteOk 9 ([sampleDeleted], initSyncResult) sampleDeleted =
      ([sampleDeleted], recordPushErr { initSyncResult with updated := 1 } "a"
        ("Record with id " ++ "a" ++ " not found")) ∧
    pushStep envRemoteOk 9 ([sampleDeletedNoRid], initSyncResult) sampleDeletedNoRid =
      ([sampleDeletedNoRid], recordPushErr initSyncResult "a"
        ("Record with id " ++ "a" ++ " not found")) ∧
    pullStep envRemoteOk "todos" 9 ([sampleDeleted], initSyncResult, 0) sampleRemote =
      ([sampleDeleted], recordPullErr initSyncResult "r"
        ("Record with id " ++ "a" ++ " not found"), 0) := by
  have h := sync_deleted_writeback_c8
  refine ⟨h.1 [sampleDeletedNoRid] sampleDeletedNoRid (by simp) rfl, ?_, ?_, ?_⟩
  · exact h.2.1 envRemoteOk 9 [sampleDeleted] initSyncResult sampleDeleted "r"
      sampleRemote rfl rfl rfl
  · exact h.2.2.1 envRemoteOk 9 [sampleDeletedNoRid] initSyncResult sampleDeletedNoRid
      sampleRemote rfl rfl rfl
  · exact h.2.2.2 envRemoteOk "todos" 9 [sampleDeleted] initSyncResult 0
      sampleRemote sampleDeleted rfl rfl (by decide) rfl
